import Mathlib

/-!
Verification of `pysgmcmc` (Bayesian neural network training module and
stepsize schedules) against its natural-language specification.

The source module `pysgmcmc/models/bayesian_neural_network.py` is shallowly
embedded below.  Machine floats are modelled by exact rationals `ℚ`; a
division whose denominator is exactly zero (numpy would produce `inf`/`nan`)
is modelled by `Option.none`.  External library primitives (`torch.exp`,
`torch.log`) are abstracted as function parameters, since they are collaborator
code, not part of this repository.
-/

/-- `np.sign` on one scalar: `1` for positive, `-1` for negative, `0` for zero. -/
def np_sign (q : ℚ) : ℚ :=
  if 0 < q then 1 else if q < 0 then -1 else 0

/-- `np.true_divide` on one scalar pair.  A zero denominator yields `none`,
modelling the non-finite `inf`/`nan` value numpy produces there. -/
def divOpt (a b : ℚ) : Option ℚ :=
  if b = 0 then none else some (a / b)

/-- `safe_division` (bayesian_neural_network.py, lines 91-142) for array-valued
`y`, element-wise: if every element of `y` is zero, divide `x` by
`small_constant`; otherwise divide each `x i` by `np.sign (y i) * small_constant + y i`. -/
def safe_division (x y : List ℚ) (small_constant : ℚ) : List (Option ℚ) :=
  if y.all (fun v => v == 0) then
    x.map (fun xi => divOpt xi small_constant)
  else
    (x.zip y).map (fun p => divOpt p.1 (np_sign p.2 * small_constant + p.2))

/-- `safe_division` in the numpy-broadcast shape used by
`zero_mean_unit_var_normalization` on one column: `x` is the column of
deviations and `y` the (scalar) standard deviation of that column. -/
def safe_division_bcast (x : List ℚ) (y : ℚ) (small_constant : ℚ) : List (Option ℚ) :=
  if y == 0 then
    x.map (fun xi => divOpt xi small_constant)
  else
    x.map (fun xi => divOpt xi (np_sign y * small_constant + y))

/-- `np.mean` of a column. -/
def np_mean (X : List ℚ) : ℚ := X.sum / X.length

/-- Square of `np.std` of a column (population variance, the numpy default). -/
def np_var (X : List ℚ) : ℚ := (X.map (fun xi => (xi - np_mean X) ^ 2)).sum / X.length

/-- `zero_mean_unit_var_normalization` (lines 145-153) on one column with the
given statistics: `safe_division (X - mean) std` element-wise. -/
def zero_mean_unit_var_normalization (X : List ℚ) (mean std : ℚ) : List (Option ℚ) :=
  safe_division_bcast (X.map (fun xi => xi - mean)) std (1 / 10 ^ 16)

/-- `zero_mean_unit_var_unnormalization` (lines 156-157) on one column:
`X_normalized * std + mean` element-wise (a non-finite entry stays non-finite). -/
def zero_mean_unit_var_unnormalization (Xn : List (Option ℚ)) (mean std : ℚ) : List (Option ℚ) :=
  Xn.map (fun o => o.map (fun xn => xn * std + mean))

/-- `log_variance_prior` (lines 165-174).  `log_variance` is the batch column of
predicted log-variances (shape `(batch, 1)`, so the inner `sum` over `dim=1` is
per-row identity and the outer `torch.mean` averages over the batch).
`lg` abstracts `torch.log`. -/
def log_variance_prior (lg : ℚ → ℚ) (log_variance : List ℚ) (mean variance : ℚ) : ℚ :=
  ((log_variance.map
      (fun lv => (-(lv - lg mean) ^ 2) / (2 * variance) - (1 / 2) * lg variance)).sum)
    / (log_variance.length : ℚ)

/-- `weight_prior` (lines 177-186).  Each parameter tensor is flattened to a
list; the loop accumulates `sum (-wdecay * 0.5 * p ^ 2)` and the total element
count, then divides by `(num_parameters + 1e-16)`. -/
def weight_prior (parameters : List (List ℚ)) (wdecay : ℚ) : ℚ :=
  ((parameters.map (fun p => (p.map (fun w => -wdecay * (1 / 2) * w ^ 2)).sum)).sum)
    / (((parameters.map List.length).sum : ℚ) + 1 / 10 ^ 16)

/-- `NegativeLogLikelihood.forward` (lines 23-50).  `inp` is the prediction
matrix as a list of rows `(mean, log_variance)` (columns 0 and 1), `target` the
target column.  `e` abstracts `torch.exp` and `lg` abstracts `torch.log`.
`target_requires_grad` models the `_assert_no_grad(target)` guard: a target
carrying gradient information makes the call fail (`none`). -/
def nll_forward (e lg : ℚ → ℚ) (parameters : List (List ℚ)) (num_datapoints : ℚ)
    (inp : List (ℚ × ℚ)) (target : List ℚ) (target_requires_grad : Bool) : Option ℚ :=
  if target_requires_grad then none
  else
    let batch_size : ℚ := (target.length : ℚ)
    let log_likelihood :=
      ((inp.zip target).map
        (fun p =>
          -((p.2 - p.1.1) ^ 2) * (1 / 2) * (1 / (e p.1.2 + 1 / 10 ^ 16))
            - (1 / 2) * p.1.2)).sum
    let log_likelihood := log_likelihood / batch_size
    let log_likelihood := log_likelihood +
      log_variance_prior lg (inp.map Prod.snd) (1 / 10 ^ 6) (1 / 100) / num_datapoints
    let log_likelihood := log_likelihood + weight_prior parameters 1 / num_datapoints
    some (-log_likelihood)

/-- The heteroscedastic loss exactly as the spec words it (spec 4.3): the
negative of [ the batch mean of the per-example terms
`-0.5 * (target - mean) ^ 2 * (1 / (exp log_variance + 1e-16)) - 0.5 * log_variance`,
plus `log_variance_prior log_variance / num_datapoints`,
plus `weight_prior parameters / num_datapoints` ].
Written from the spec for comparison with `nll_forward`. -/
def spec_heteroscedastic_loss (e lg : ℚ → ℚ) (parameters : List (List ℚ))
    (num_datapoints : ℚ) (inp : List (ℚ × ℚ)) (target : List ℚ) : ℚ :=
  -( ((inp.zip target).map
        (fun p =>
          -(1 / 2) * (p.2 - p.1.1) ^ 2 * (1 / (e p.1.2 + 1 / 10 ^ 16))
            - (1 / 2) * p.1.2)).sum / (target.length : ℚ)
    + log_variance_prior lg (inp.map Prod.snd) (1 / 10 ^ 6) (1 / 100) / num_datapoints
    + weight_prior parameters 1 / num_datapoints)

/-- The configuration fields stored by `BayesianNeuralNetwork.__init__`
(lines 202-219).  `num_steps` is the capped post-burn-in step count
`min (num_steps_arg - burn_in_steps) (keep_every * num_nets)` and
`num_iterations = num_steps + burn_in_steps`. -/
structure BNNConfig where
  burn_in_steps : ℤ
  num_steps : ℤ
  num_iterations : ℤ
  batch_size : ℤ
  keep_every : ℤ
  num_nets : ℤ
deriving DecidableEq, Repr

/-- `BayesianNeuralNetwork.__init__` (lines 202-219): the four `assert`
statements, in source order, then the derived fields.  A failed assertion is
modelled by `none`.  All of this runs at construction time, before `train`. -/
def bnn_init (num_steps burn_in_steps batch_size keep_every num_nets : ℤ) :
    Option BNNConfig :=
  if num_steps > burn_in_steps then
    if batch_size > 0 then
      if keep_every > 0 then
        if num_nets > 0 then
          let capped := min (num_steps - burn_in_steps) (keep_every * num_nets)
          some ⟨burn_in_steps, capped, capped + burn_in_steps,
                batch_size, keep_every, num_nets⟩
        else none
      else none
    else none
  else none

/-- `BayesianNeuralNetwork._keep_sample` (lines 253-257), over the loop's
natural-number epoch counter. -/
def keep_sample (burn_in_steps keep_every epoch : ℕ) : Bool :=
  if epoch < burn_in_steps then false
  else (epoch - burn_in_steps) % keep_every == 0

/-- The total iteration count of a constructed trainer, in terms of the
burn-in length `B`, the requested post-burn-in step count
`R = num_steps_arg - burn_in_steps`, `keep_every = K` and `num_nets = N`:
`min R (K * N) + B` (lines 215-219). -/
def num_iterations (B R K N : ℕ) : ℕ :=
  min R (K * N) + B

/-- The mutable trainer state relevant to snapshot collection:
`sampled_weights` (here identified by the epoch index at which each snapshot
was taken; snapshots are appended in epoch order) and the `is_trained` flag. -/
structure BNNState where
  sampled_weights : List ℕ
  is_trained : Bool
deriving DecidableEq, Repr

/-- The trainer state after the first `k` iterations of the `train` loop
(lines 308-356): snapshots collected at every epoch `i < k` with
`keep_sample i`; `is_trained` is not yet set (it only appears at line 359,
after the loop). -/
def train_loop_state (B R K N k : ℕ) : BNNState :=
  ⟨(List.range (min k (num_iterations B R K N))).filter (fun i => keep_sample B K i),
   false⟩

/-- The trainer state after a completed `train` call (lines 262-359): the loop
runs for exactly `num_iterations` epochs, then `is_trained` is set. -/
def train_run (B R K N : ℕ) : BNNState :=
  ⟨(List.range (num_iterations B R K N)).filter (fun i => keep_sample B K i),
   true⟩

/-- Size of the ensemble collected by a completed `train` call. -/
def sampled_weights_count (B R K N : ℕ) : ℕ :=
  (train_run B R K N).sampled_weights.length

/-- `np.mean` over the leading axis of a list of per-snapshot outputs; the
empty list yields `nan` (`none`). -/
def np_mean_axis0 (xs : List ℚ) : Option ℚ :=
  if xs.isEmpty then none else some (xs.sum / (xs.length : ℚ))

/-- The error raised by `predict` (line 363, `assert self.is_trained`). -/
inductive PredictError where
  | notTrained
deriving DecidableEq, Repr

/-- `BayesianNeuralNetwork.predict` (lines 362-397), for one test input.
The per-snapshot forward passes are external network evaluations; their
results enter as `network_outputs` (one scalar, the first output column, per
ensemble snapshot, in ensemble order).  The code first asserts `is_trained`,
then averages: `prediction_mean` is the mean over snapshots and
`prediction_variance` the mean squared deviation from it; with output
normalization enabled the mean is unnormalized (`* y_std + y_mean`) and the
variance is scaled by `y_std ^ 2`.  `return_individual_predictions` is
accepted (and in the code asserted to be a bool) but never used: the return
value is always exactly the pair `(prediction_mean, prediction_variance)`. -/
def bnn_predict (is_trained : Bool) (normalize_output : Bool) (y_mean y_std : ℚ)
    (network_outputs : List ℚ) (return_individual_predictions : Bool) :
    Except PredictError (Option ℚ × Option ℚ) :=
  if is_trained then
    let prediction_mean := np_mean_axis0 network_outputs
    let m := prediction_mean.getD 0
    let prediction_variance :=
      np_mean_axis0 (network_outputs.map (fun o => (o - m) ^ 2))
    if normalize_output then
      Except.ok (prediction_mean.map (fun v => v * y_std + y_mean),
                 prediction_variance.map (fun v => v * y_std ^ 2))
    else
      Except.ok (prediction_mean, prediction_variance)
  else
    Except.error PredictError.notTrained

/-- The `network_weights` setter (lines 247-251): `zip` the network's
parameter tensors with the snapshot's tensors positionally and overwrite each
paired parameter in place with the snapshot values (`parameter.copy_`);
parameters beyond the snapshot's length are left unchanged.  Tensors are
modelled as flat lists of values. -/
def network_weights_set (parameters weights : List (List ℚ)) : List (List ℚ) :=
  (parameters.zip weights).map Prod.snd ++ parameters.drop weights.length

/-! ### Helper lemmas on the sampling schedule -/

theorem keep_sample_of_lt {B K i : ℕ} (h : i < B) : keep_sample B K i = false := by
  simp [keep_sample, h]

theorem keep_sample_shift (B K S : ℕ) :
    keep_sample B K (B + S) = (S % K == 0) := by
  unfold keep_sample
  rw [if_neg (by omega), Nat.add_sub_cancel_left]

theorem countP_keep_sample (B K S : ℕ) :
    (List.range (B + S)).countP (fun i => keep_sample B K i)
      = (List.range S).countP (fun j => j % K == 0) := by
  induction S with
  | zero =>
      simp only [Nat.add_zero, List.range_zero, List.countP_nil]
      rw [List.countP_eq_zero]
      intro a ha
      rw [List.mem_range] at ha
      simp [keep_sample_of_lt ha]
  | succ S ih =>
      rw [Nat.add_succ, List.range_succ, List.range_succ,
          List.countP_append, List.countP_append, ih]
      simp [List.countP_cons, keep_sample_shift]

theorem countP_mod_range (K : ℕ) (hK : 0 < K) (S : ℕ) :
    (List.range S).countP (fun j => j % K == 0) = (S + K - 1) / K := by
  induction S with
  | zero =>
      simp only [List.range_zero, List.countP_nil, Nat.zero_add]
      rw [Nat.div_eq_of_lt (by omega)]
  | succ S ih =>
      rw [List.range_succ, List.countP_append, ih]
      have hcount : (List.countP (fun j => j % K == 0) [S]) = if S % K = 0 then 1 else 0 := by
        by_cases h : S % K = 0 <;> simp [List.countP_cons, h]
      have hstep : S + 1 + K - 1 = (S + K - 1) + 1 := by omega
      have hSK : S + K - 1 + 1 = S + K := by omega
      rw [hcount, hstep, Nat.succ_div, hSK]
      have hiff : (K ∣ S + K) ↔ S % K = 0 := by
        rw [Nat.dvd_add_self_right, Nat.dvd_iff_mod_eq_zero]
      by_cases h : S % K = 0
      · rw [if_pos h, if_pos (hiff.mpr h)]
      · rw [if_neg h, if_neg (fun hc => h (hiff.mp hc))]

theorem sampled_weights_count_eq (B R K N : ℕ) (hK : 0 < K) :
    sampled_weights_count B R K N = (min R (K * N) + K - 1) / K := by
  unfold sampled_weights_count train_run num_iterations
  rw [← List.countP_eq_length_filter, Nat.add_comm (min R (K * N)) B,
      countP_keep_sample, countP_mod_range K hK]

theorem min_ceil_div (R K N : ℕ) (hK : 0 < K) :
    (min R (K * N) + K - 1) / K = min ((R + K - 1) / K) N := by
  rcases le_total R (K * N) with h | h
  · rw [min_eq_left h, min_eq_left]
    have hlt : (R + K - 1) / K < N + 1 := by
      rw [Nat.div_lt_iff_lt_mul hK]
      have hNK : (N + 1) * K = K * N + K := by ring
      rw [hNK]
      omega
    omega
  · rw [min_eq_right h]
    have h1 : (K * N + K - 1) / K = N := by
      apply Nat.le_antisymm
      · have hlt : (K * N + K - 1) / K < N + 1 := by
          rw [Nat.div_lt_iff_lt_mul hK]
          have hNK : (N + 1) * K = K * N + K := by ring
          rw [hNK]
          omega
        omega
      · rw [Nat.le_div_iff_mul_le hK]
        have hNK : N * K = K * N := by ring
        rw [hNK]
        omega
    rw [h1, min_eq_right]
    rw [Nat.le_div_iff_mul_le hK]
    have hNK : N * K = K * N := by ring
    rw [hNK]
    omega

/-! ### Claim theorems -/

/-- Claim C2 (amended): for every valid configuration (`R` requested
post-burn-in steps, `K = keep_every`, `N = num_nets`, all positive),
`_keep_sample` is never true before `burn_in_steps`, and across the full run
of `burn_in_steps + min R (K * N)` iterations it is true exactly
`min (ceil (R / K)) N = min ((R + K - 1) / K) N` times (ceiling division, not
the floor division the original claim stated), so the ensemble never exceeds
`num_nets` entries. -/
theorem snapshot_schedule_count (B R K N : ℕ) (hR : 1 ≤ R) (hK : 1 ≤ K) (hN : 1 ≤ N) :
    (∀ i, i < B → keep_sample B K i = false)
    ∧ sampled_weights_count B R K N = min ((R + K - 1) / K) N
    ∧ sampled_weights_count B R K N ≤ N := by
  refine ⟨fun i hi => keep_sample_of_lt hi, ?_, ?_⟩
  · rw [sampled_weights_count_eq B R K N hK, min_ceil_div R K N hK]
  · rw [sampled_weights_count_eq B R K N hK, min_ceil_div R K N hK]
    exact min_le_right _ _

/-- Witness for `snapshot_schedule_count` at the spec's own end-to-end
configuration: `burn_in_steps = 10`, 20 requested post-burn-in steps,
`keep_every = 5`, `num_nets = 100`; the run collects
`min ((20 + 5 - 1) / 5) 100 = 4` snapshots. -/
theorem snapshot_schedule_count_witness :
    1 ≤ 20 ∧ sampled_weights_count 10 20 5 100 = min ((20 + 5 - 1) / 5) 100 :=
  ⟨by decide, (snapshot_schedule_count 10 20 5 100 (by decide) (by decide) (by decide)).2.1⟩

/-- Counterexample to claim C2 as stated: with `burn_in_steps = 1`, one
requested post-burn-in step, `keep_every = 2`, `num_nets = 1` (a valid
configuration), the run snapshots once (at epoch 1), but the claimed count
`min (R / K) N = min (1 / 2) 1` is `0`. -/
theorem snapshot_schedule_count_floor_cex :
    sampled_weights_count 1 1 2 1 = 1 ∧ min (1 / 2) 1 = 0
      ∧ sampled_weights_count 1 1 2 1 ≠ min (1 / 2) 1 := by decide

/-- Claim C9: for every configuration accepted by the constructor, a completed
`train` call collects at least one snapshot: `_keep_sample` is true at epoch
`burn_in_steps`, that epoch is executed (the capped post-burn-in count is at
least 1), and hence the ensemble is never empty after `train`, no matter how
large `keep_every` is. -/
theorem first_snapshot_at_burn_in (B R K N : ℕ) (hR : 1 ≤ R) (hK : 1 ≤ K) (hN : 1 ≤ N) :
    keep_sample B K B = true
    ∧ B < num_iterations B R K N
    ∧ 1 ≤ sampled_weights_count B R K N := by
  refine ⟨?_, ?_, ?_⟩
  · unfold keep_sample
    rw [if_neg (by omega)]
    simp [Nat.sub_self]
  · unfold num_iterations
    have hKN : 1 ≤ K * N := Nat.mul_pos hK hN
    omega
  · rw [sampled_weights_count_eq B R K N hK]
    rw [Nat.le_div_iff_mul_le hK]
    have h1 : 1 ≤ min R (K * N) := le_min hR (Nat.mul_pos hK hN)
    omega

/-- Witness for `first_snapshot_at_burn_in`: with `burn_in_steps = 2`, one
requested post-burn-in step and `keep_every = num_nets = 100`, a snapshot is
taken at epoch 2 and the ensemble is nonempty. -/
theorem first_snapshot_at_burn_in_witness :
    keep_sample 2 100 2 = true ∧ 1 ≤ sampled_weights_count 2 1 100 100 :=
  ⟨(first_snapshot_at_burn_in 2 1 100 100 (by decide) (by decide) (by decide)).1,
   (first_snapshot_at_burn_in 2 1 100 100 (by decide) (by decide) (by decide)).2.2⟩

/-- Claim C3 (amended): the code contains no empty-ensemble check at all, and
the empty ensemble is unreachable from a completed run anyway.  A completed
`train` run whose `keep_every` exceeds the requested post-burn-in step count
collects exactly one snapshot (at epoch `burn_in_steps`), so `predict` then
succeeds; and `predict` invoked with a trained model and zero snapshots does
not raise any error: it returns `Except.ok` with `nan` (modelled `none`) mean
and variance from the empty-mean computation. -/
theorem sparse_schedule_single_snapshot (B R K N : ℕ)
    (hR : 1 ≤ R) (hRK : R < K) (hN : 1 ≤ N) :
    sampled_weights_count B R K N = 1
    ∧ ∀ (nrm : Bool) (y_mean y_std : ℚ) (ri : Bool),
        bnn_predict true nrm y_mean y_std [] ri = Except.ok (none, none) := by
  constructor
  · have hK : 0 < K := by omega
    rw [sampled_weights_count_eq B R K N hK, min_ceil_div R K N hK]
    have h1 : (R + K - 1) / K = 1 := by
      apply Nat.le_antisymm
      · have hlt : (R + K - 1) / K < 2 := by
          rw [Nat.div_lt_iff_lt_mul hK]
          omega
        omega
      · rw [Nat.le_div_iff_mul_le hK]
        omega
    rw [h1]
    exact min_eq_left hN
  · intro nrm y_mean y_std ri
    cases nrm <;> rfl

/-- Witness for `sparse_schedule_single_snapshot`: `burn_in_steps = 2`, two
requested post-burn-in steps, `keep_every = 3 > 2`, `num_nets = 4`. -/
theorem sparse_schedule_single_snapshot_witness :
    sampled_weights_count 2 2 3 4 = 1
    ∧ bnn_predict true false 0 0 [] false = Except.ok (none, none) :=
  ⟨(sparse_schedule_single_snapshot 2 2 3 4 (by decide) (by decide) (by decide)).1,
   (sparse_schedule_single_snapshot 2 2 3 4 (by decide) (by decide) (by decide)).2 false 0 0 false⟩

/-- Counterexample to claim C3 as stated: `predict` on a trained model with an
empty ensemble returns `Except.ok` (with `nan` mean and variance), not an
explicit "no samples collected" error; and the run the claim points to
(`keep_every = 5` exceeding the single requested post-burn-in step) does not
even produce an empty ensemble: it collects exactly one snapshot. -/
theorem predict_empty_ensemble_no_error :
    bnn_predict true false 0 0 [] false = Except.ok (none, none)
    ∧ sampled_weights_count 1 1 5 3 = 1 :=
  ⟨rfl, by decide⟩

/-- Claim C8: on a trainer on which `train` has never completed — after any
prefix of `k` loop iterations, including none — the `is_trained` flag is still
unset and every `predict` call fails with the not-trained error; the flag is
set only by the completed run. -/
theorem predict_before_trained_fails (B R K N k : ℕ) (nrm : Bool) (y_mean y_std : ℚ)
    (outs : List ℚ) (ri : Bool) :
    (train_loop_state B R K N k).is_trained = false
    ∧ bnn_predict (train_loop_state B R K N k).is_trained nrm y_mean y_std outs ri
        = Except.error PredictError.notTrained
    ∧ (train_run B R K N).is_trained = true :=
  ⟨rfl, rfl, rfl⟩

/-- Claim C7: construction succeeds exactly when the requested total iteration
count exceeds the burn-in length and `batch_size`, `keep_every` and `num_nets`
are positive; the four `assert` statements run in `__init__`, before any
training. -/
theorem bnn_init_validation (num_steps burn_in_steps batch_size keep_every num_nets : ℤ) :
    (bnn_init num_steps burn_in_steps batch_size keep_every num_nets).isSome = true
      ↔ (burn_in_steps < num_steps ∧ 0 < batch_size ∧ 0 < keep_every ∧ 0 < num_nets) := by
  unfold bnn_init
  split_ifs with h1 h2 h3 h4 <;> simp_all

/-- Claim C4: `predict` ignores its `return_individual_predictions` flag
entirely — the result is identical for every value of the flag and is always
exactly the pair `(prediction_mean, prediction_variance)`, never accompanied
by per-snapshot outputs; evaluated concretely on the ensemble outputs
`[1, 2]` with the flag set. -/
theorem predict_return_individual_ignored :
    (∀ (t nrm : Bool) (y_mean y_std : ℚ) (outs : List ℚ) (ri : Bool),
        bnn_predict t nrm y_mean y_std outs ri = bnn_predict t nrm y_mean y_std outs false)
    ∧ bnn_predict true false 0 0 [1, 2] true = Except.ok (some (3 / 2), some (1 / 4)) := by
  constructor
  · intro t nrm y_mean y_std outs ri
    rfl
  · norm_num [bnn_predict, np_mean_axis0]

/-- Claim C1: evaluation of `safe_division` at `x = [1, 1]`, `y = [0, 1]`
(a denominator array mixing a zero and a nonzero element).  Because
`np.sign 0 = 0`, the zero element's denominator is `0 * ε + 0 = 0` and the
result there is non-finite (`none`) — the division by zero the function's own
documentation promises to avoid; only when every element of `y` is zero does
the code fall back to the finite `x / ε`. -/
theorem safe_division_sign_zero_divides_by_zero :
    safe_division [1, 1] [0, 1] (1 / 10 ^ 16)
        = [none, some (1 / (1 + 1 / 10 ^ 16))]
    ∧ safe_division [1, 1] [0, 0] (1 / 10 ^ 16) = [some (10 ^ 16), some (10 ^ 16)] := by
  constructor <;> norm_num [safe_division, divOpt, np_sign]

/-- Claim C5: `NegativeLogLikelihood.forward` computes exactly the negative of
[ the batch mean of the per-example Gaussian log-likelihood
`-0.5 * (target - mean) ^ 2 / (exp log_variance + 1e-16) - 0.5 * log_variance`,
plus `log_variance_prior / num_datapoints`, plus
`weight_prior / num_datapoints` ], where `num_datapoints` is the full
training-set size handed to the constructor; and a target carrying gradient
information is rejected by the `_assert_no_grad` guard, so no gradient flows
into targets. -/
theorem nll_forward_matches_spec (e lg : ℚ → ℚ) (parameters : List (List ℚ))
    (num_datapoints : ℚ) (inp : List (ℚ × ℚ)) (target : List ℚ) :
    nll_forward e lg parameters num_datapoints inp target false
      = some (spec_heteroscedastic_loss e lg parameters num_datapoints inp target)
    ∧ nll_forward e lg parameters num_datapoints inp target true = none := by
  constructor
  · have hmap :
        ((inp.zip target).map (fun p =>
          -((p.2 - p.1.1) ^ 2) * (1 / 2) * (1 / (e p.1.2 + 1 / 10 ^ 16)) - (1 / 2) * p.1.2))
        = ((inp.zip target).map (fun p =>
          -(1 / 2) * (p.2 - p.1.1) ^ 2 * (1 / (e p.1.2 + 1 / 10 ^ 16)) - (1 / 2) * p.1.2)) :=
      List.map_congr_left (fun a _ => by ring)
    unfold nll_forward spec_heteroscedastic_loss
    rw [if_neg (by simp)]
    rw [hmap]
  · rfl

/-- Claim C6: for a column whose population standard deviation `s` is nonzero
(with `s ^ 2` the population variance of `X`, so nonzero means positive),
un-normalizing the normalized column with the same statistics reconstructs
each entry up to the exact error `(xi - mean) * ε / (s + ε)` with
`ε = 1e-16` — the per-entry deviation from `xi` is bounded by
`(ε / s) * |xi - mean|`, the floating-point-tolerance reading of the claim.
For a zero-std column no such bound is required (nor available). -/
theorem normalization_roundtrip (X : List ℚ) (s : ℚ)
    (hs : 0 < s) (hvar : s ^ 2 = np_var X) :
    zero_mean_unit_var_unnormalization
        (zero_mean_unit_var_normalization X (np_mean X) s) (np_mean X) s
      = X.map (fun xi => some (xi - (xi - np_mean X) * (1 / 10 ^ 16) / (s + 1 / 10 ^ 16)))
    ∧ ∀ xi ∈ X,
        |xi - (xi - (xi - np_mean X) * (1 / 10 ^ 16) / (s + 1 / 10 ^ 16))|
          ≤ (1 / 10 ^ 16) / s * |xi - np_mean X| := by
  have hden : np_sign s * (1 / 10 ^ 16) + s ≠ 0 := by
    unfold np_sign
    rw [if_pos hs]
    positivity
  constructor
  · unfold zero_mean_unit_var_unnormalization zero_mean_unit_var_normalization
      safe_division_bcast
    rw [if_neg (by simp [hs.ne'])]
    rw [List.map_map, List.map_map]
    apply List.map_congr_left
    intro xi _
    simp only [Function.comp_apply, divOpt, if_neg hden, Option.map_some]
    have h1 : np_sign s = 1 := by unfold np_sign; rw [if_pos hs]
    rw [h1] at hden ⊢
    field_simp
    ring
  · intro xi hxi
    have h1 : xi - (xi - (xi - np_mean X) * (1 / 10 ^ 16) / (s + 1 / 10 ^ 16))
        = (xi - np_mean X) * (1 / 10 ^ 16) / (s + 1 / 10 ^ 16) := by ring
    rw [h1, abs_div, abs_mul]
    have hse : (0:ℚ) < s + 1 / 10 ^ 16 := by positivity
    rw [abs_of_pos hse, abs_of_pos (by norm_num : (0:ℚ) < 1 / 10 ^ 16)]
    have h2 : (1:ℚ) / 10 ^ 16 / s * |xi - np_mean X|
        = |xi - np_mean X| * (1 / 10 ^ 16) / s := by ring
    rw [h2]
    gcongr
    linarith

/-- Witness for `normalization_roundtrip` at `X = [0, 2]`, whose column mean
is 1 and population standard deviation is 1. -/
theorem normalization_roundtrip_witness :
    (0:ℚ) < 1 ∧ (1:ℚ) ^ 2 = np_var [0, 2]
    ∧ zero_mean_unit_var_unnormalization
        (zero_mean_unit_var_normalization [0, 2] (np_mean [0, 2]) 1) (np_mean [0, 2]) 1
      = ([0, 2] : List ℚ).map
          (fun xi => some (xi - (xi - np_mean [0, 2]) * (1 / 10 ^ 16) / (1 + 1 / 10 ^ 16))) :=
  ⟨by norm_num,
   by norm_num [np_var, np_mean],
   (normalization_roundtrip [0, 2] 1 (by norm_num) (by norm_num [np_var, np_mean])).1⟩

theorem network_weights_set_nil_right (ps : List (List ℚ)) :
    network_weights_set ps [] = ps := by
  simp [network_weights_set]

theorem network_weights_set_nil_left (ws : List (List ℚ)) :
    network_weights_set [] ws = [] := by
  simp [network_weights_set]

theorem network_weights_set_cons (p w : List ℚ) (ps ws : List (List ℚ)) :
    network_weights_set (p :: ps) (w :: ws) = w :: network_weights_set ps ws := by
  simp [network_weights_set]

/-- Claim C10: the `network_weights` setter pairs the network's parameter
tensors with the snapshot's tensors positionally (`zip`): every paired
parameter is overwritten with the snapshot's values, the parameter count is
unchanged, and when the snapshot is shorter than the parameter sequence the
trailing parameters keep their old values — the setter is total, no error is
raised. -/
theorem network_weights_setter_semantics (ps ws : List (List ℚ)) :
    (network_weights_set ps ws).length = ps.length
    ∧ (∀ i, i < ps.length → i < ws.length →
        (network_weights_set ps ws).getD i [] = ws.getD i [])
    ∧ (∀ i, ws.length ≤ i →
        (network_weights_set ps ws).getD i [] = ps.getD i []) := by
  induction ps generalizing ws with
  | nil =>
      refine ⟨by simp [network_weights_set_nil_left], ?_, ?_⟩
      · intro i hi _
        simp at hi
      · intro i _
        rw [network_weights_set_nil_left]
  | cons p ps ih =>
      cases ws with
      | nil =>
          rw [network_weights_set_nil_right]
          refine ⟨rfl, ?_, ?_⟩
          · intro i _ h2
            simp at h2
          · intro i _
            rfl
      | cons w ws =>
          rw [network_weights_set_cons]
          obtain ⟨ihl, ihm, ihr⟩ := ih ws
          refine ⟨by simpa using ihl, ?_, ?_⟩
          · intro i h1 h2
            cases i with
            | zero => rfl
            | succ i =>
                simp only [List.getD_cons_succ]
                exact ihm i (by simpa using h1) (by simpa using h2)
          · intro i hi
            cases i with
            | zero => exact absurd hi (by simp)
            | succ i =>
                simp only [List.getD_cons_succ]
                exact ihr i (by simpa using hi)

/-- Witness for `network_weights_setter_semantics`: three parameter tensors,
a two-tensor snapshot; positions 0 and 1 are overwritten, position 2 keeps
its old value. -/
theorem network_weights_setter_semantics_witness :
    (network_weights_set [[1], [2], [3]] [[4], [5]]).getD 0 [] = [4]
    ∧ (network_weights_set [[1], [2], [3]] [[4], [5]]).getD 2 [] = [3] :=
  ⟨(network_weights_setter_semantics [[1], [2], [3]] [[4], [5]]).2.1 0 (by decide) (by decide),
   (network_weights_setter_semantics [[1], [2], [3]] [[4], [5]]).2.2 2 (by decide)⟩
